import Mathlib

/-!
Shallow embedding of `helix-term/src/ui/picker.rs`: the `Picker` state
machine (fuzzy-scored match list, saved filter scope, selection cursor,
page windowing) and the `FilePicker` preview cache, together with proofs
about the ranking, scoping, cursor and caching behaviour.
-/

/-- State of `Picker<T>` (picker.rs, lines 160-177), restricted to the fields
that the scoring, filtering, cursor and windowing logic reads or writes.
The `options` vector is opaque to that logic (only positions matter), so it
is modelled by its length `numOptions`; `matchesList` is the source field
`matches`, the `Vec<(usize, i64)>` of (index, score) pairs (renamed because
`matches` is a reserved word here); `filters` is the saved scope
(`Vec<usize>`); `line` is the prompt's query text (`self.prompt.line`). -/
structure Picker where
  numOptions : Nat
  matchesList : List (Nat × Int)
  filters : List Nat
  cursor : Nat
  line : String
  deriving DecidableEq

/-- The candidate scan of one `Picker::score` pass (picker.rs, lines
226-243): walk the option indices in order; when the saved `filters` scope
is nonempty, drop every index outside it
(`if !filters.is_empty() { filters.binary_search(&index).ok()?; }` —
`filters` is kept sorted and duplicate-free by `save_filter`, so the binary
search succeeds exactly on membership); keep `(index, score)` for each
surviving index the matcher scores.  The external `format_fn` plus
`matcher.fuzzy_match(&text, pattern)` pipeline is abstracted by
`m : Nat → Option Int`, the score of the option at a given index under the
current pattern. -/
def scoreList (n : Nat) (filters : List Nat) (m : Nat → Option Int) :
    List (Nat × Int) :=
  (List.range n).filterMap fun index =>
    if ¬ filters.isEmpty ∧ ¬ index ∈ filters then none
    else (m index).map fun s => (index, s)

/-- Sortedness established by `matches.sort_unstable_by_key(|(_, score)|
-score)` (picker.rs, line 244): ascending in the key `-score`, that is,
nonincreasing in `score`. -/
def SortedByNegScore (l : List (Nat × Int)) : Prop :=
  List.Pairwise (fun a b => -a.2 ≤ -b.2) l

instance (l : List (Nat × Int)) : Decidable (SortedByNegScore l) := by
  unfold SortedByNegScore
  infer_instance

/-- The tie-break order asserted by the specification for RankedView:
entries with equal scores appear in ascending original-index order. -/
def TieBreakAsc (l : List (Nat × Int)) : Prop :=
  List.Pairwise (fun a b => a.2 = b.2 → a.1 ≤ b.1) l

instance (l : List (Nat × Int)) : Decidable (TieBreakAsc l) := by
  unfold TieBreakAsc
  infer_instance

/-- One `Picker::score` pass (picker.rs, lines 213-248) as a relation
between the state `P` before and the state `Q` after.  `sf index pattern`
abstracts `matcher.fuzzy_match(&format_fn(option), pattern)`.  The final
`matches.sort_unstable_by_key(|(_, score)| -score)` is an unstable sort:
it guarantees only that the result is a permutation of the scanned list
that is sorted by the key `-score`, leaving the relative order of equal
keys unspecified, so the pass is a relation rather than a function.  The
trailing `self.cursor = 0` is the cursor reset. -/
def ScoreRel (sf : Nat → String → Option Int) (P Q : Picker) : Prop :=
  Q.numOptions = P.numOptions ∧
  Q.filters = P.filters ∧
  Q.line = P.line ∧
  Q.matchesList.Perm (scoreList P.numOptions P.filters fun index => sf index P.line) ∧
  SortedByNegScore Q.matchesList ∧
  Q.cursor = 0

instance (sf : Nat → String → Option Int) (P Q : Picker) :
    Decidable (ScoreRel sf P Q) := by
  unfold ScoreRel
  infer_instance

/-- The picker state assembled by `Picker::new` (picker.rs, lines 195-205)
just before the constructor's closing `picker.score()` call: empty match
list and filters, cursor 0, empty prompt line. -/
def Picker.initial (n : Nat) : Picker :=
  { numOptions := n, matchesList := [], filters := [], cursor := 0, line := "" }

/-- Full construction `Picker::new` (picker.rs, lines 180-211): the initial
state followed by the constructor's `picker.score()` call. -/
def NewRel (sf : Nat → String → Option Int) (n : Nat) (Q : Picker) : Prop :=
  ScoreRel sf (Picker.initial n) Q

instance (sf : Nat → String → Option Int) (n : Nat) (Q : Picker) :
    Decidable (NewRel sf n Q) := by
  unfold NewRel
  infer_instance

/-- `Picker::move_up` (picker.rs, lines 250-252):
`self.cursor.saturating_sub(1)`, which on `Nat` is truncated subtraction,
the same as `max (cursor - 1) 0`. -/
def moveUp (P : Picker) : Picker :=
  { P with cursor := P.cursor - 1 }

/-- `Picker::move_down` (picker.rs, lines 254-262): return unchanged when
`matchesList` is empty, otherwise increment the cursor only while strictly
below `matchesList.len() - 1`. -/
def moveDown (P : Picker) : Picker :=
  if P.matchesList.isEmpty then P
  else if P.cursor < P.matchesList.length - 1 then { P with cursor := P.cursor + 1 }
  else P

/-- `Picker::save_filter` (picker.rs, lines 270-276): clear `filters`,
refill it with the indices currently in `matches`, sort it with
`sort_unstable` (on a duplicate-free list of naturals the sorted
permutation is unique, so the stable `List.insertionSort` realizes exactly
that result), and clear the prompt.  `Prompt::clear` lives outside this
source unit; modelled from the spec: "additionally clears the query", so
`line` becomes the empty string.  Neither `matchesList` nor `cursor` is
touched, and no rescoring happens here. -/
def saveFilter (P : Picker) : Picker :=
  { P with
    filters := List.insertionSort (· ≤ ·) (P.matchesList.map Prod.fst)
    line := "" }

/-- The cursor bound invariant stated by the spec (§3 Cursor): the cursor
is a valid position of `matchesList` whenever `matchesList` is nonempty, and 0
otherwise. -/
def CursorInv (P : Picker) : Prop :=
  (P.matchesList = [] → P.cursor = 0) ∧
  (P.matchesList ≠ [] → P.cursor < P.matchesList.length)

instance (P : Picker) : Decidable (CursorInv P) := by
  unfold CursorInv
  infer_instance

/-- The default arm of `Picker::handle_event` (picker.rs, lines 378-383):
the event is forwarded to the prompt, and whenever the prompt consumes it —
whether or not the query text changed (`// TODO: recalculate only if
pattern changed`) — `self.score()` runs.  The external
`Prompt::handle_event` is abstracted by its observable outcome: whether
the event was `consumed` and the prompt line `newLine` afterwards; an
event the prompt does not consume leaves the picker unchanged. -/
def HandleOtherRel (sf : Nat → String → Option Int) (consumed : Bool)
    (newLine : String) (P Q : Picker) : Prop :=
  (consumed = true → ScoreRel sf { P with line := newLine } Q) ∧
  (consumed = false → Q = P)

instance (sf : Nat → String → Option Int) (consumed : Bool)
    (newLine : String) (P Q : Picker) :
    Decidable (HandleOtherRel sf consumed newLine P Q) := by
  unfold HandleOtherRel
  infer_instance

/-- The windowing offset computed in `Picker::render` (picker.rs, line
432): `self.cursor / (rows as usize) * (rows as usize)`. -/
def windowOffset (cursor rows : Nat) : Nat :=
  cursor / rows * rows

/-- The slice of `matches` made visible by `Picker::render` (picker.rs,
lines 434-438): `matches.iter().skip(offset)` followed by
`take(rows as usize)`. -/
def visibleSlice (matchesList : List (Nat × Int)) (cursor rows : Nat) :
    List (Nat × Int) :=
  (matchesList.drop (windowOffset cursor rows)).take rows

/-- The content-row computation of `Picker::render` (picker.rs, line 426):
below the bordered block, two further rows (prompt line and separator) are
subtracted from the inner height, `inner.height - 2`. -/
def contentRows (innerHeight : Nat) : Nat :=
  innerHeight - 2

/-- The offset division of `Picker::render` (picker.rs, line 432) with
Rust semantics for `/` on `usize`: division by zero aborts, modelled as
`none`. -/
def checkedOffset (cursor rows : Nat) : Option Nat :=
  if rows = 0 then none else some (windowOffset cursor rows)

/-- Outcome of a computation that may abort the process
(`Option::unwrap` / `Result::unwrap` on the failure variant). -/
inductive LoadOutcome (σ : Type) where
  | ok : σ → LoadOutcome σ
  | aborted : LoadOutcome σ
  deriving DecidableEq

/-- Association-list lookup modelling `HashMap::get` / `contains_key` on
the preview cache (keys are kept unique: the source inserts only paths
that are not yet present). -/
def lookupCache {Path Doc : Type} [DecidableEq Path] :
    List (Path × Doc) → Path → Option Doc
  | [], _ => none
  | (q, d) :: rest, p => if p = q then some d else lookupCache rest p

/-- `FilePicker::calculate_preview` (picker.rs, lines 60-68).  `cur`
abstracts `current_file` (the selection, `file_fn` and path
canonicalization, all external); `live` abstracts
`editor.document_by_path`; `loader` abstracts `Document::open`, with
`none` for a failed load.  When the current path is neither cached nor
backed by a live document, the source runs
`Document::open(&path, ..).unwrap()`: a failed load aborts the process
(`LoadOutcome.aborted`); a successful load is inserted into the cache.
The returned `Bool` records whether a fresh load was performed. -/
def calculatePreview {Path Doc : Type} [DecidableEq Path]
    (live : Path → Option Doc) (loader : Path → Option Doc)
    (cur : Option Path) (cache : List (Path × Doc)) :
    LoadOutcome (List (Path × Doc) × Bool) :=
  match cur with
  | none => .ok (cache, false)
  | some path =>
    if (lookupCache cache path).isNone ∧ (live path).isNone then
      match loader path with
      | some doc => .ok ((path, doc) :: cache, true)
      | none => .aborted
    else .ok (cache, false)

/-- The preview-document lookup in `FilePicker::render` (picker.rs, lines
113-118): prefer the live open document (`editor.document_by_path`), else
fall back to the preview cache (`self.preview_cache.get(&path)`). -/
def previewDoc {Path Doc : Type} [DecidableEq Path]
    (live : Path → Option Doc) (cache : List (Path × Doc))
    (cur : Option Path) : Option Doc :=
  match cur with
  | none => none
  | some path =>
    match live path with
    | some d => some d
    | none => lookupCache cache path

/-- Membership in one scan pass: an (index, score) pair survives exactly
when the index is in range, passes the scope filter, and the matcher
scores it. -/
theorem mem_scoreList {n : Nat} {fl : List Nat} {m : Nat → Option Int}
    {pr : Nat × Int} :
    pr ∈ scoreList n fl m ↔
      pr.1 < n ∧ (fl = [] ∨ pr.1 ∈ fl) ∧ m pr.1 = some pr.2 := by
  unfold scoreList
  rw [List.mem_filterMap]
  constructor
  · rintro ⟨i, hi, h⟩
    rw [List.mem_range] at hi
    split at h
    · simp at h
    · rename_i hcond
      rw [Option.map_eq_some'] at h
      obtain ⟨s, hs, hpr⟩ := h
      subst hpr
      refine ⟨hi, ?_, hs⟩
      by_cases hfl : fl = []
      · exact Or.inl hfl
      · right
        by_contra hmem
        exact hcond ⟨by simpa using hfl, hmem⟩
  · rintro ⟨h1, h2, h3⟩
    refine ⟨pr.1, List.mem_range.mpr h1, ?_⟩
    have hcond : ¬ (¬ fl.isEmpty ∧ ¬ pr.1 ∈ fl) := by
      rcases h2 with h2 | h2
      · intro h
        exact h.1 (by simp [h2])
      · intro h
        exact h.2 h2
    rw [if_neg hcond, h3]
    rfl

/-- The scan pass never produces the same candidate index twice. -/
theorem nodup_fst_scoreList (n : Nat) (fl : List Nat) (m : Nat → Option Int) :
    ((scoreList n fl m).map Prod.fst).Nodup := by
  unfold scoreList
  rw [List.map_filterMap]
  refine List.Nodup.filterMap ?_ (List.nodup_range ..)
  intro a a' b hb hb'
  have ha : b = a := by
    simp only [Option.mem_def] at hb
    split at hb
    · simp at hb
    · rw [Option.map_map, Option.map_eq_some'] at hb
      obtain ⟨s, -, h⟩ := hb
      exact h.symm
  have ha' : b = a' := by
    simp only [Option.mem_def] at hb'
    split at hb'
    · simp at hb'
    · rw [Option.map_map, Option.map_eq_some'] at hb'
      obtain ⟨s, -, h⟩ := hb'
      exact h.symm
  exact ha.symm.trans ha'

/-- A cache lookup misses exactly when the path is not among the cached
keys. -/
theorem lookupCache_eq_none_iff {Path Doc : Type} [DecidableEq Path]
    (cache : List (Path × Doc)) (p : Path) :
    lookupCache cache p = none ↔ p ∉ cache.map Prod.fst := by
  induction cache with
  | nil => simp [lookupCache]
  | cons hd tl ih =>
    obtain ⟨q, d⟩ := hd
    by_cases h : p = q
    · subst h
      simp [lookupCache]
    · simp [lookupCache, h, ih]

/-- Scorer giving every candidate the same score, to exercise ties. -/
def sfTie : Nat → String → Option Int :=
  fun _ _ => some 5

/-- A two-candidate picker before scoring. -/
def pTiePre : Picker :=
  Picker.initial 2

/-- A post-scan state the unstable sort may produce for `sfTie`: both
pairs carry score 5 and are listed in descending index order. -/
def pTie : Picker :=
  { numOptions := 2, matchesList := [(1, 5), (0, 5)], filters := [],
    cursor := 0, line := "" }

/-- C1, counterexample: the scan relation admits an outcome whose
equal-score entries are not in ascending original-index order —
`sort_unstable_by_key` promises no stability, so the claimed stable
tie-break fails on this input. -/
theorem c1_counterexample :
    ScoreRel sfTie pTiePre pTie ∧ ¬ TieBreakAsc pTie.matchesList := by
  decide

/-- C1 (amended): after every rescan the match list is sorted by
nonincreasing score and consists exactly of the in-scope candidates the
scorer matched, with no index occurring twice; the relative order of
equal-score entries is unspecified because the sort is unstable. -/
theorem c1_sorted_desc_complete_nodup (sf : Nat → String → Option Int)
    (P Q : Picker) (h : ScoreRel sf P Q) :
    SortedByNegScore Q.matchesList ∧
      (∀ pr : Nat × Int, pr ∈ Q.matchesList ↔
        pr.1 < P.numOptions ∧ (P.filters = [] ∨ pr.1 ∈ P.filters) ∧
          sf pr.1 P.line = some pr.2) ∧
      (Q.matchesList.map Prod.fst).Nodup := by
  obtain ⟨-, -, -, hperm, hsorted, -⟩ := h
  refine ⟨hsorted, ?_, ?_⟩
  · intro pr
    rw [hperm.mem_iff, mem_scoreList]
  · exact ((hperm.map Prod.fst).nodup_iff).mpr (nodup_fst_scoreList ..)

/-- C1, witness: the amended theorem applied to a concrete scan with
ties. -/
theorem c1_witness :
    SortedByNegScore pTie.matchesList ∧ (pTie.matchesList.map Prod.fst).Nodup :=
  ⟨(c1_sorted_desc_complete_nodup sfTie pTiePre pTie (by decide)).1,
   (c1_sorted_desc_complete_nodup sfTie pTiePre pTie (by decide)).2.2⟩

/-- Scorer that matches every candidate with score 7, standing for the
query typed after a save. -/
def sfAll : Nat → String → Option Int :=
  fun _ _ => some 7

/-- A one-candidate picker whose current query matched nothing: the match
list is empty at save time. -/
def pSaveEmpty : Picker :=
  { numOptions := 1, matchesList := [], filters := [], cursor := 0,
    line := "zz" }

/-- A scan outcome that the code permits after saving the empty match
list. -/
def qAfterSaveEmpty : Picker :=
  { numOptions := 1, matchesList := [(0, 7)], filters := [], cursor := 0,
    line := "" }

/-- C2, counterexample: saving an empty match list stores the empty filter
list, which the scan treats as no scope at all
(`if !filters.is_empty()`), so a later rescan can produce indices that
were not in the snapshot — the subset property fails in exactly the
empty-at-save case the claim covers. -/
theorem c2_counterexample :
    ScoreRel sfAll (saveFilter pSaveEmpty) qAfterSaveEmpty ∧
      ¬ (∀ pr ∈ qAfterSaveEmpty.matchesList,
          pr.1 ∈ pSaveEmpty.matchesList.map Prod.fst) := by
  decide

/-- C2 (amended): when the match list is nonempty at save time, every
subsequent rescan, under any query, yields matches whose indices all come
from the saved snapshot. -/
theorem c2_rescan_subset_of_saved (sf : Nat → String → Option Int)
    (P Q : Picker) (hne : P.matchesList ≠ [])
    (h : ScoreRel sf (saveFilter P) Q) :
    ∀ pr ∈ Q.matchesList, pr.1 ∈ P.matchesList.map Prod.fst := by
  intro pr hpr
  obtain ⟨-, -, -, hperm, -, -⟩ := h
  rw [hperm.mem_iff, mem_scoreList] at hpr
  obtain ⟨-, hscope, -⟩ := hpr
  have hperm2 := List.perm_insertionSort (· ≤ ·) (P.matchesList.map Prod.fst)
  rcases hscope with hfl | hfl
  · exfalso
    simp only [saveFilter] at hfl
    rw [hfl] at hperm2
    have := (List.nil_perm).mp hperm2
    exact hne (List.map_eq_nil_iff.mp this)
  · simp only [saveFilter] at hfl
    exact hperm2.mem_iff.mp hfl

/-- A two-candidate picker with one surviving match at save time. -/
def pSaveOne : Picker :=
  { numOptions := 2, matchesList := [(1, 4)], filters := [], cursor := 0,
    line := "b" }

/-- A scan outcome the code permits after saving that snapshot. -/
def qAfterSaveOne : Picker :=
  { numOptions := 2, matchesList := [(1, 7)], filters := [1], cursor := 0,
    line := "" }

/-- C2, witness: the amended subset theorem applied to a concrete
nonempty save followed by a rescan. -/
theorem c2_witness : ((1, 7) : Nat × Int).1 ∈ pSaveOne.matchesList.map Prod.fst :=
  c2_rescan_subset_of_saved sfAll pSaveOne qAfterSaveOne (by decide) (by decide)
    (1, 7) (by decide)

/-- Scorer standing for fuzzy matching under the empty query: every
candidate matches, as the skim matcher does on an empty pattern. -/
def sfEmptyQuery : Nat → String → Option Int :=
  fun _ _ => some 0

/-- A picker whose query matched nothing just before the save. -/
def pStale : Picker :=
  { numOptions := 1, matchesList := [], filters := [], cursor := 0,
    line := "x" }

/-- C3, counterexample: `save_filter` never calls `score`, so the state it
leaves is not a rescan of itself under the now-empty query — the stale
empty match list survives although the empty query matches the candidate.
No implicit rescan happens before the next input event. -/
theorem c3_counterexample :
    ¬ ScoreRel sfEmptyQuery (saveFilter pStale) (saveFilter pStale) := by
  decide

/-- C3 (amended): `save_filter` replaces the scope with a freshly sorted
snapshot of the match list's indices and clears the query, and changes
nothing else: match list and cursor are left as they were, and no rescan
is triggered. -/
theorem c3_save_snapshot_no_rescan (P : Picker) :
    (saveFilter P).filters.Perm (P.matchesList.map Prod.fst) ∧
      List.Sorted (· ≤ ·) (saveFilter P).filters ∧
      (saveFilter P).line = "" ∧
      (saveFilter P).matchesList = P.matchesList ∧
      (saveFilter P).cursor = P.cursor ∧
      (saveFilter P).numOptions = P.numOptions :=
  ⟨List.perm_insertionSort (· ≤ ·) (P.matchesList.map Prod.fst),
   List.sorted_insertionSort (· ≤ ·) (P.matchesList.map Prod.fst),
   rfl, rfl, rfl, rfl⟩

/-- C4: the load-error branch aborts.  When the selected candidate's
canonical path is neither cached nor open as a live document and the
fresh load fails, `calculate_preview` hits
`Document::open(&path, ..).unwrap()` on the failure and the process
terminates — there is no recoverable preview-unavailable outcome in the
code. -/
theorem c4_load_failure_aborts {Path Doc : Type} [DecidableEq Path]
    (live : Path → Option Doc) (loader : Path → Option Doc) (path : Path)
    (cache : List (Path × Doc)) (hcache : lookupCache cache path = none)
    (hlive : live path = none) (hload : loader path = none) :
    calculatePreview live loader (some path) cache = .aborted := by
  simp only [calculatePreview]
  rw [if_pos ⟨by simp [hcache], by simp [hlive]⟩, hload]

/-- C4, witness: a concrete failing load aborts. -/
theorem c4_witness :
    calculatePreview (fun _ : Nat => (none : Option Nat)) (fun _ => none)
      (some 0) [] = .aborted :=
  c4_load_failure_aborts _ _ 0 [] rfl rfl rfl

/-- Scorer for a two-candidate picker with distinct scores. -/
def sfTwo : Nat → String → Option Int :=
  fun index _ => if index = 0 then some 5 else some 3

/-- A picker whose user has moved the cursor to the second match. -/
def pMoved : Picker :=
  { numOptions := 2, matchesList := [(0, 5), (1, 3)], filters := [],
    cursor := 1, line := "" }

/-- C5: every outcome the code permits for a consumed prompt event that
leaves the query text unchanged still reruns `score` — the source
rescores on every consumed event (the `TODO: recalculate only if pattern
changed` on picker.rs line 380 records the missing check) — forcing the
cursor back to 0 although the query did not change. -/
theorem c5_rescan_despite_unchanged_text (Q : Picker)
    (h : HandleOtherRel sfTwo true pMoved.line pMoved Q) :
    Q.cursor = 0 ∧ Q.cursor ≠ pMoved.cursor := by
  have hs := h.1 rfl
  have hc : Q.cursor = 0 := hs.2.2.2.2.2
  refine ⟨hc, ?_⟩
  rw [hc]
  decide

/-- A permitted outcome of that consumed no-change event. -/
def pRescored : Picker :=
  { numOptions := 2, matchesList := [(0, 5), (1, 3)], filters := [],
    cursor := 0, line := "" }

/-- C5, witness: the concrete outcome of the no-change event has its
cursor reset. -/
theorem c5_witness : pRescored.cursor = 0 ∧ pRescored.cursor ≠ pMoved.cursor :=
  c5_rescan_despite_unchanged_text pRescored (by decide)

/-- C6: the cursor bound invariant holds after construction, every scan
pass resets the cursor to 0 and reestablishes the invariant, and cursor
moves and scope saves preserve it. -/
theorem c6_cursor_invariant :
    (∀ (sf : Nat → String → Option Int) (n : Nat) (Q : Picker),
        NewRel sf n Q → CursorInv Q) ∧
    (∀ (sf : Nat → String → Option Int) (P Q : Picker),
        ScoreRel sf P Q → Q.cursor = 0 ∧ CursorInv Q) ∧
    (∀ P : Picker, CursorInv P → CursorInv (moveUp P)) ∧
    (∀ P : Picker, CursorInv P → CursorInv (moveDown P)) ∧
    (∀ P : Picker, CursorInv P → CursorInv (saveFilter P)) := by
  have hscore : ∀ (sf : Nat → String → Option Int) (P Q : Picker),
      ScoreRel sf P Q → Q.cursor = 0 ∧ CursorInv Q := by
    intro sf P Q h
    have hc : Q.cursor = 0 := h.2.2.2.2.2
    refine ⟨hc, fun _ => hc, fun hne => ?_⟩
    rw [hc]
    exact List.length_pos.mpr hne
  refine ⟨fun sf n Q h => (hscore sf (Picker.initial n) Q h).2, hscore,
    ?_, ?_, fun P h => h⟩
  · intro P h
    refine ⟨fun he => ?_, fun hne => ?_⟩
    · have h0 := h.1 he
      show P.cursor - 1 = 0
      omega
    · have h0 := h.2 hne
      show P.cursor - 1 < P.matchesList.length
      omega
  · intro P h
    unfold moveDown
    by_cases he : P.matchesList.isEmpty
    · rw [if_pos he]
      exact h
    · have hne : P.matchesList ≠ [] := by
        simpa using he
      have hlen := h.2 hne
      rw [if_neg he]
      by_cases hc : P.cursor < P.matchesList.length - 1
      · rw [if_pos hc]
        refine ⟨fun hEmpty => absurd hEmpty hne, fun _ => ?_⟩
        show P.cursor + 1 < P.matchesList.length
        omega
      · rw [if_neg hc]
        exact h

/-- Scorer matching the single candidate with score 1. -/
def sfOne : Nat → String → Option Int :=
  fun _ _ => some 1

/-- A permitted result of constructing a one-candidate picker under
`sfOne`. -/
def qNew : Picker :=
  { numOptions := 1, matchesList := [(0, 1)], filters := [], cursor := 0,
    line := "" }

/-- A two-match picker with the cursor on the second match. -/
def pC6 : Picker :=
  { numOptions := 2, matchesList := [(0, 5), (1, 3)], filters := [],
    cursor := 1, line := "" }

/-- C6, witness: the invariant theorem applied at concrete states. -/
theorem c6_witness :
    CursorInv qNew ∧ CursorInv (moveUp pC6) ∧ CursorInv (moveDown pC6) ∧
      CursorInv (saveFilter pC6) :=
  ⟨c6_cursor_invariant.1 sfOne 1 qNew (by decide),
   c6_cursor_invariant.2.2.1 pC6 (by decide),
   c6_cursor_invariant.2.2.2.1 pC6 (by decide),
   c6_cursor_invariant.2.2.2.2 pC6 (by decide)⟩

/-- C7: cursor movement never wraps.  `move_up` is saturating decrement
(`max (cursor - 1) 0`, a no-op at 0); `move_down` is a no-op on an empty
match list and otherwise clamps at `len - 1` (`min (cursor + 1)
(len - 1)` for any in-bounds cursor), a no-op at the last index. -/
theorem c7_no_wraparound :
    (∀ P : Picker, (moveUp P).cursor = P.cursor - 1) ∧
    (∀ P : Picker, P.cursor = 0 → moveUp P = P) ∧
    (∀ P : Picker, P.matchesList = [] → moveDown P = P) ∧
    (∀ P : Picker, P.matchesList ≠ [] → P.cursor < P.matchesList.length →
        (moveDown P).cursor = min (P.cursor + 1) (P.matchesList.length - 1)) ∧
    (∀ P : Picker, P.cursor = P.matchesList.length - 1 → moveDown P = P) := by
  refine ⟨fun P => rfl, ?_, ?_, ?_, ?_⟩
  · intro P h
    obtain ⟨n, ms, fl, c, ln⟩ := P
    have h0 : c = 0 := h
    subst h0
    rfl
  · intro P h
    obtain ⟨n, ms, fl, c, ln⟩ := P
    have h0 : ms = [] := h
    subst h0
    rfl
  · intro P h1 h2
    have hl : 0 < P.matchesList.length := List.length_pos.mpr h1
    unfold moveDown
    rw [if_neg (by simpa using h1)]
    by_cases hc : P.cursor < P.matchesList.length - 1
    · rw [if_pos hc]
      show P.cursor + 1 = min (P.cursor + 1) (P.matchesList.length - 1)
      omega
    · rw [if_neg hc]
      show P.cursor = min (P.cursor + 1) (P.matchesList.length - 1)
      omega
  · intro P h
    unfold moveDown
    by_cases he : P.matchesList.isEmpty
    · rw [if_pos he]
    · rw [if_neg he, if_neg (by omega)]

/-- A three-option picker with two matches and the cursor on the last. -/
def pC7 : Picker :=
  { numOptions := 3, matchesList := [(2, 9), (0, 4)], filters := [],
    cursor := 1, line := "a" }

/-- C7, witness: the no-wraparound theorem applied at concrete states. -/
theorem c7_witness :
    (moveUp pC7).cursor = pC7.cursor - 1 ∧
      moveUp (Picker.initial 4) = Picker.initial 4 ∧
      moveDown (Picker.initial 4) = Picker.initial 4 ∧
      (moveDown pC7).cursor = min (pC7.cursor + 1) (pC7.matchesList.length - 1) ∧
      moveDown pC7 = pC7 :=
  ⟨c7_no_wraparound.1 pC7,
   c7_no_wraparound.2.1 _ rfl,
   c7_no_wraparound.2.2.1 _ rfl,
   c7_no_wraparound.2.2.2.1 pC7 (by decide) (by decide),
   c7_no_wraparound.2.2.2.2 pC7 (by decide)⟩

/-- C8: page-jump windowing.  For any positive row budget the offset is
`floor(cursor / rows) * rows`, a multiple of the budget bracketing the
cursor within one page, and the visible slice is the page starting at the
offset. -/
theorem c8_window_page (ms : List (Nat × Int)) (cursor rows : Nat)
    (hrows : 0 < rows) :
    windowOffset cursor rows = cursor / rows * rows ∧
      rows ∣ windowOffset cursor rows ∧
      windowOffset cursor rows ≤ cursor ∧
      cursor < windowOffset cursor rows + rows ∧
      visibleSlice ms cursor rows =
        (ms.drop (windowOffset cursor rows)).take rows := by
  refine ⟨rfl, dvd_mul_left rows (cursor / rows),
    Nat.div_mul_le_self cursor rows, ?_, rfl⟩
  calc cursor = rows * (cursor / rows) + cursor % rows :=
        (Nat.div_add_mod cursor rows).symm
    _ < rows * (cursor / rows) + rows :=
        Nat.add_lt_add_left (Nat.mod_lt cursor hrows) _
    _ = cursor / rows * rows + rows := by rw [Nat.mul_comm]

/-- C8, witness: the spec's own example, row budget 5 and cursor 7. -/
theorem c8_witness :
    windowOffset 7 5 = 7 / 5 * 5 ∧ (5 : Nat) ∣ windowOffset 7 5 ∧
      windowOffset 7 5 ≤ 7 ∧ 7 < windowOffset 7 5 + 5 ∧
      visibleSlice [(0, 9), (1, 8), (2, 7), (3, 6), (4, 5), (5, 4), (6, 3)] 7 5 =
        (([(0, 9), (1, 8), (2, 7), (3, 6), (4, 5), (5, 4), (6, 3)] :
            List (Nat × Int)).drop (windowOffset 7 5)).take 5 :=
  c8_window_page [(0, 9), (1, 8), (2, 7), (3, 6), (4, 5), (5, 4), (6, 3)] 7 5
    (by decide)

/-- C9: the preview cache loads a cold path at most once.  With no live
document for the path, a first `calculate_preview` loads and caches the
content exactly when it is absent, a second identical request performs no
load and leaves the cache unchanged, both subsequent renders read the same
cached document, and cache keys stay duplicate-free (at most one entry per
canonical path). -/
theorem c9_preview_loaded_once {Path Doc : Type} [DecidableEq Path]
    (live : Path → Option Doc) (loader : Path → Option Doc) (path : Path)
    (d : Doc) (cache : List (Path × Doc)) (hlive : live path = none)
    (hload : loader path = some d)
    (hnodup : (cache.map Prod.fst).Nodup) :
    (lookupCache cache path = none →
      calculatePreview live loader (some path) cache =
          .ok ((path, d) :: cache, true) ∧
        calculatePreview live loader (some path) ((path, d) :: cache) =
          .ok ((path, d) :: cache, false) ∧
        previewDoc live ((path, d) :: cache) (some path) = some d ∧
        (((path, d) :: cache).map Prod.fst).Nodup) ∧
    (∀ e, lookupCache cache path = some e →
      calculatePreview live loader (some path) cache = .ok (cache, false) ∧
        previewDoc live cache (some path) = some e) := by
  constructor
  · intro hmiss
    refine ⟨?_, ?_, ?_, ?_⟩
    · simp only [calculatePreview]
      rw [if_pos ⟨by simp [hmiss], by simp [hlive]⟩, hload]
    · simp only [calculatePreview]
      rw [if_neg (by simp [lookupCache])]
    · simp only [previewDoc]
      rw [hlive]
      simp [lookupCache]
    · simp only [List.map_cons]
      exact List.nodup_cons.mpr
        ⟨(lookupCache_eq_none_iff cache path).mp hmiss, hnodup⟩
  · intro e hhit
    constructor
    · simp only [calculatePreview]
      rw [if_neg (by simp [hhit])]
    · simp only [previewDoc]
      rw [hlive, hhit]

/-- C9, witness: a concrete cold path loaded once and then served from the
cache. -/
theorem c9_witness :
    calculatePreview (fun _ : Nat => (none : Option Nat)) (fun _ => some 42)
        (some 3) [] = .ok ([(3, 42)], true) ∧
      calculatePreview (fun _ : Nat => (none : Option Nat)) (fun _ => some 42)
        (some 3) [(3, 42)] = .ok ([(3, 42)], false) ∧
      previewDoc (fun _ : Nat => (none : Option Nat)) [(3, 42)] (some 3) =
        some 42 ∧
      (([(3, 42)] : List (Nat × Nat)).map Prod.fst).Nodup :=
  (c9_preview_loaded_once (fun _ => none) (fun _ => some 42) 3 42 [] rfl rfl
    (by decide)).1 rfl

/-- C10: the render offset division is unguarded.  When the block-inner
height is exactly 2, the two rows taken for the prompt and separator leave
zero content rows and `self.cursor / rows` divides by zero, which on Rust
`usize` aborts; for any positive row count the division is defined and
yields the windowing offset. -/
theorem c10_offset_division_guard (cursor rows : Nat) :
    checkedOffset cursor (contentRows 2) = none ∧
      (0 < rows → checkedOffset cursor rows = some (windowOffset cursor rows)) := by
  constructor
  · rfl
  · intro h
    unfold checkedOffset
    rw [if_neg (by omega)]

/-- C10, witness: concrete cursor 9 with zero rows aborts, with four rows
succeeds. -/
theorem c10_witness :
    checkedOffset 9 (contentRows 2) = none ∧
      checkedOffset 9 4 = some (windowOffset 9 4) :=
  ⟨(c10_offset_division_guard 9 4).1, (c10_offset_division_guard 9 4).2 (by decide)⟩
